import Mathlib

/-!
# Verification of `undelete-subvol.c` (btrfs-progs subvolume undelete)

A shallow embedding of the subvolume-undelete core:

* `is_subvol_intact`          — the intactness classifier;
* `recover_dead_root`         — clearing the `BTRFS_ROOT_SUBVOL_DEAD` flag on a
                                root item;
* `link_subvol_to_lostfound`  — the per-candidate recovery transaction;
* `btrfs_undelete_subvols`    — the orphan scanner.

Machine integers are modelled as `Nat` with explicit `% 2 ^ 64` where the C
code can wrap; C `int` return codes are modelled as `Int`.  The external
storage/transaction collaborators (search slots, mkdir, link creation,
transaction begin/commit) are modelled by explicit result injection: each
call site takes the collaborator's return code as a parameter, and the
embedding reproduces exactly the control flow the C code performs on those
codes.  Transaction staging is modelled by threading a candidate state and
returning the original state on every non-commit path.
-/

/-- The value `(u64)-1`, the starting search offset of an unfiltered scan. -/
def U64_MAX : Nat := 2 ^ 64 - 1

/-- The modulus of `u64` arithmetic, `2 ^ 64`. -/
def U64_MOD : Nat := 2 ^ 64

/-- The `BTRFS_ROOT_SUBVOL_DEAD` root-item flag, bit 48. -/
def BTRFS_ROOT_SUBVOL_DEAD : Nat := 2 ^ 48

/-- The errno `ENOENT`; the scanner returns `-ENOENT`. -/
def ENOENT : Int := 2

/-- An on-disk key triple (`struct btrfs_disk_key`). -/
structure DiskKey where
  objectid : Nat
  keytype : Nat
  offset : Nat
deriving DecidableEq

/-- A root item (`struct btrfs_root_item`) restricted to the fields the core
touches: the 64-bit `flags` word and the `drop_progress` key.  All remaining
fields of the descriptor are abstracted into `otherFields`, so that frame
conditions ("no other field changes") can be stated. -/
structure RootItem where
  flags : Nat
  drop_progress : DiskKey
  otherFields : Nat
deriving DecidableEq

/-- The persistent filesystem metadata visible to the undelete core:

* `orphans`   — the orphan-marker index: the list of subvolume ids that carry
                an `(BTRFS_ORPHAN_OBJECTID, BTRFS_ORPHAN_ITEM_KEY, id)` item;
* `roots`     — the root tree's `ROOT_ITEM` records, keyed by subvolume id;
* `links`     — namespace links under `lost+found`: `(name, target id)`;
* `lostFound` — whether the `lost+found` directory exists. -/
structure FsState where
  orphans : List Nat
  roots : List (Nat × RootItem)
  links : List (String × Nat)
  lostFound : Bool
deriving DecidableEq

/-- Resolve the root item of `id` (the happy path of `btrfs_read_fs_root` /
of an exact `btrfs_search_slot` on `(id, BTRFS_ROOT_ITEM_KEY, _)`).
`none` models `IS_ERR(root)` resp. a failed exact search. -/
def lookupRoot (st : FsState) (id : Nat) : Option RootItem :=
  (st.roots.find? (fun p => p.1 == id)).map Prod.snd

/-- Function `is_subvol_intact` from `undelete-subvol.c`:
resolve the root of `subvol_id`; an unresolvable root is not intact;
otherwise the subvolume is intact exactly when
`btrfs_disk_key_objectid(&root->root_item.drop_progress)` is zero. -/
def is_subvol_intact (st : FsState) (subvol_id : Nat) : Bool :=
  match lookupRoot st subvol_id with
  | none => false
  | some root => root.drop_progress.objectid == 0

/-- Function `recover_dead_root` from `undelete-subvol.c`.

`search_err` injects a storage-level failure of the initial
`btrfs_search_slot`; when the storage works, the search returns `0` when the
`ROOT_ITEM` of `subvol_id` exists and `1` when it does not.  On a non-zero
search result the function returns it unchanged (after the error message).
Otherwise the root item is read, its flags replaced by
`root_flags & ~BTRFS_ROOT_SUBVOL_DEAD`, and the item written back. -/
def recover_dead_root (search_err : Int) (st : FsState) (subvol_id : Nat) :
    Int × FsState :=
  let ret : Int :=
    if search_err ≠ 0 then search_err
    else if (lookupRoot st subvol_id).isSome then 0 else 1
  if ret ≠ 0 then (ret, st)
  else
    (0, { st with roots := st.roots.map (fun p =>
            if p.1 = subvol_id then
              (p.1, { p.2 with
                        flags := p.2.flags &&& (U64_MAX ^^^ BTRFS_ROOT_SUBVOL_DEAD) })
            else p) })

/-- Injected return codes of the external collaborators called by one run of
`link_subvol_to_lostfound`, in call order:

* `start_ret`  — `btrfs_start_transaction`: non-zero means `IS_ERR(trans)`
                 and is the `PTR_ERR` value returned;
* `mkdir_ret`  — `btrfs_mkdir`; the code treats only `ret < 0` as failure;
* `link_ret`   — `btrfs_link_subvol`; any non-zero value is failure;
* `search_ret` — the `btrfs_search_slot` inside `recover_dead_root`;
* `del_ret`    — `btrfs_del_orphan_item`; any non-zero value is failure;
* `commit_ret` — `btrfs_commit_transaction`; any non-zero value is failure. -/
structure StepResults where
  start_ret : Int
  mkdir_ret : Int
  link_ret : Int
  search_ret : Int
  del_ret : Int
  commit_ret : Int
deriving DecidableEq

/-- Function `link_subvol_to_lostfound` from `undelete-subvol.c`: the recovery
transaction for one candidate.  Mutations (`lost+found` creation, the
namespace link `sub<id>`, the flag edit of `recover_dead_root`, the orphan
deletion) are staged on a candidate state `st1 … st4`; every failure path
(`goto out` before a successful commit) returns the injected error code and
the original state, since nothing staged in an uncommitted transaction is
visible.  Only a successful `btrfs_commit_transaction` publishes `st4`. -/
def link_subvol_to_lostfound (sr : StepResults) (st : FsState)
    (subvol_id : Nat) : Int × FsState :=
  if sr.start_ret ≠ 0 then (sr.start_ret, st)
  else
    let st1 := { st with lostFound := true }
    if sr.mkdir_ret < 0 then (sr.mkdir_ret, st)
    else
      let st2 := { st1 with
                     links := ("sub" ++ toString subvol_id, subvol_id) :: st1.links }
      if sr.link_ret ≠ 0 then (sr.link_ret, st)
      else
        let r := recover_dead_root sr.search_ret st2 subvol_id
        if r.1 ≠ 0 then (r.1, st)
        else
          let st4 := { r.2 with
                         orphans := r.2.orphans.filter (fun x => x ≠ subvol_id) }
          if sr.del_ret ≠ 0 then (sr.del_ret, st)
          else if sr.commit_ret ≠ 0 then (sr.commit_ret, st)
          else (0, st4)

/-- The `btrfs_search_slot` + `btrfs_previous_item` pair of the scan loop,
restricted to the orphan key range: the previous item before key
`(BTRFS_ORPHAN_OBJECTID, BTRFS_ORPHAN_ITEM_KEY, bound)` is the orphan marker
with the largest id strictly below `bound`, or `none` when no marker lies
below `bound` (`btrfs_previous_item` returns `1`). -/
def prevOrphan (l : List Nat) (bound : Nat) : Option Nat :=
  l.foldr (fun x acc =>
    if x < bound then
      match acc with
      | none => some x
      | some y => some (max x y)
    else acc) none

theorem prevOrphan_cons (x : Nat) (xs : List Nat) (bound : Nat) :
    prevOrphan (x :: xs) bound =
      if x < bound then
        match prevOrphan xs bound with
        | none => some x
        | some y => some (max x y)
      else prevOrphan xs bound := rfl

theorem prevOrphan_none {l : List Nat} {bound : Nat}
    (h : prevOrphan l bound = none) : ∀ x ∈ l, ¬ x < bound := by
  induction l with
  | nil => simp
  | cons a xs ih =>
    rw [prevOrphan_cons] at h
    by_cases ha : a < bound
    · rw [if_pos ha] at h
      rcases hacc : prevOrphan xs bound with _ | y <;> rw [hacc] at h <;> simp at h
    · rw [if_neg ha] at h
      intro x hx
      rcases List.mem_cons.mp hx with rfl | hm
      · exact ha
      · exact ih h x hm

/-- Characterisation of the "previous item" step: it yields a marker that is
in the index, lies strictly below the search bound, and is the largest such
marker. -/
theorem prevOrphan_spec (l : List Nat) (bound : Nat) :
    ∀ k, prevOrphan l bound = some k →
      k ∈ l ∧ k < bound ∧ ∀ x ∈ l, x < bound → x ≤ k := by
  induction l with
  | nil => intro k h; simp [prevOrphan] at h
  | cons a xs ih =>
    intro k h
    rw [prevOrphan_cons] at h
    by_cases ha : a < bound
    · rw [if_pos ha] at h
      rcases hacc : prevOrphan xs bound with _ | y
      · rw [hacc] at h
        simp only [Option.some.injEq] at h
        subst h
        refine ⟨List.mem_cons_self _ _, ha, ?_⟩
        intro x hx hxb
        rcases List.mem_cons.mp hx with rfl | hm
        · exact Nat.le_refl _
        · exact absurd hxb (prevOrphan_none hacc x hm)
      · rw [hacc] at h
        simp only [Option.some.injEq] at h
        obtain ⟨hym, hyb, hymax⟩ := ih y hacc
        subst h
        constructor
        · rcases max_choice a y with hm | hm <;> rw [hm]
          · exact List.mem_cons_self _ _
          · exact List.mem_cons_of_mem _ hym
        refine ⟨by omega, ?_⟩
        intro x hx hxb
        rcases List.mem_cons.mp hx with rfl | hm
        · exact Nat.le_max_left _ _
        · exact Nat.le_trans (hymax x hm hxb) (Nat.le_max_right _ _)
    · rw [if_neg ha] at h
      obtain ⟨hm, hb, hmax⟩ := ih k h
      refine ⟨List.mem_cons_of_mem _ hm, hb, ?_⟩
      intro x hx hxb
      rcases List.mem_cons.mp hx with rfl | hm'
      · omega
      · exact hmax x hm' hxb

theorem prevOrphan_lt {l : List Nat} {bound k : Nat}
    (h : prevOrphan l bound = some k) : k < bound :=
  (prevOrphan_spec l bound k h).2.1

theorem prevOrphan_mem {l : List Nat} {bound k : Nat}
    (h : prevOrphan l bound = some k) : k ∈ l :=
  (prevOrphan_spec l bound k h).1

/-- When `f` itself carries a marker, the previous item below `f + 1` is
exactly `f`. -/
theorem prevOrphan_succ_self {l : List Nat} {f : Nat} (hf : f ∈ l) :
    prevOrphan l (f + 1) = some f := by
  rcases hk : prevOrphan l (f + 1) with _ | k
  · exact absurd (Nat.lt_succ_self f) (prevOrphan_none hk f hf)
  · obtain ⟨_, hkb, hmax⟩ := prevOrphan_spec l (f + 1) k hk
    have := hmax f hf (Nat.lt_succ_self f)
    congr
    omega

/-- The observable outcome of one run of the scan loop of
`btrfs_undelete_subvols`:

* `ret`             — the C `ret` value at loop exit;
* `found_count`, `recovered_count` — the two counters;
* `visited`         — the marker ids read by the `previous_item` step, in
                      visit order;
* `classified`      — the ids that reached the `is_subvol_intact` call;
* `announced`       — the ids of the per-candidate
                      `"Recovered subvolume %llu …"` messages;
* `state`           — the filesystem state at loop exit. -/
structure LoopResult where
  ret : Int
  found_count : Nat
  recovered_count : Nat
  visited : List Nat
  classified : List Nat
  announced : List Nat
  state : FsState
deriving DecidableEq

/-- The `while (subvol_id != key.offset)` loop of `btrfs_undelete_subvols`.

* `steps k`      — the collaborator return codes `link_subvol_to_lostfound`
                   sees when invoked for candidate `k`;
* `search_err b` — an injected storage-level result of the
                   `btrfs_search_slot` issued at offset `b` (the code treats
                   `ret < 0` as failure and breaks);
* `offset`       — the current `key.offset`;
* `visited`, `classified`, `announced` — accumulators, newest first;
* `ret`          — the running C `ret` value.

One iteration: exit when `subvol_id == key.offset`; break on a search error;
step to the previous orphan item, breaking with `ret = 1` when none exists;
with a non-zero `subvol_id`, break with `-ENOENT` on a foreign id; skip a
non-intact candidate; otherwise count it found and run the recovery
transaction, counting success as recovered. -/
def scanLoop (steps : Nat → StepResults) (search_err : Nat → Int)
    (subvol_id : Nat) (st : FsState) (offset : Nat)
    (found_count recovered_count : Nat)
    (visited classified announced : List Nat) (ret : Int) : LoopResult :=
  if subvol_id = offset then
    ⟨ret, found_count, recovered_count, visited.reverse, classified.reverse,
      announced.reverse, st⟩
  else if search_err offset < 0 then
    ⟨search_err offset, found_count, recovered_count, visited.reverse,
      classified.reverse, announced.reverse, st⟩
  else
    match h : prevOrphan st.orphans offset with
    | none =>
        ⟨1, found_count, recovered_count, visited.reverse, classified.reverse,
          announced.reverse, st⟩
    | some k =>
        if subvol_id ≠ 0 ∧ subvol_id ≠ k then
          ⟨-ENOENT, found_count, recovered_count, (k :: visited).reverse,
            classified.reverse, announced.reverse, st⟩
        else if ¬ is_subvol_intact st k then
          scanLoop steps search_err subvol_id st k found_count recovered_count
            (k :: visited) (k :: classified) announced 0
        else
          let r := link_subvol_to_lostfound (steps k) st k
          if r.1 = 0 then
            scanLoop steps search_err subvol_id r.2 k (found_count + 1)
              (recovered_count + 1) (k :: visited) (k :: classified)
              (k :: announced) 0
          else
            scanLoop steps search_err subvol_id r.2 k (found_count + 1)
              recovered_count (k :: visited) (k :: classified) announced r.1
termination_by offset
decreasing_by
  · exact prevOrphan_lt h
  · exact prevOrphan_lt h
  · exact prevOrphan_lt h

/-- The observable outcome of `btrfs_undelete_subvols`, extending the loop
outcome with the two summary `printf` lines: `summary_found` is the value
printed by `"Found %llu deleted subvols left intact"` and
`summary_recovered` the value printed by `"Recovered %llu deleted subvols"`. -/
structure UndeleteResult where
  ret : Int
  found_count : Nat
  recovered_count : Nat
  visited : List Nat
  classified : List Nat
  announced : List Nat
  summary_found : Nat
  summary_recovered : Nat
  state : FsState
deriving DecidableEq

/-- Function `btrfs_undelete_subvols` from `undelete-subvol.c`: initialise
`key.offset` to `subvol_id ? subvol_id + 1 : (u64)-1` (with `u64` wrap), run
the scan loop with `found_count = recovered_count = 0` and `ret = 0`, then
print the two summary lines.  Note: the source passes `found_count` to
*both* summary `printf` calls. -/
def btrfs_undelete_subvols (steps : Nat → StepResults)
    (search_err : Nat → Int) (st : FsState) (subvol_id : Nat) :
    UndeleteResult :=
  let offset0 : Nat := if subvol_id ≠ 0 then (subvol_id + 1) % U64_MOD else U64_MAX
  let r := scanLoop steps search_err subvol_id st offset0 0 0 [] [] [] 0
  { ret := r.ret
    found_count := r.found_count
    recovered_count := r.recovered_count
    visited := r.visited
    classified := r.classified
    announced := r.announced
    summary_found := r.found_count
    summary_recovered := r.found_count
    state := r.state }

/-- Collaborator codes of a run in which every external call succeeds. -/
def okSteps : StepResults := ⟨0, 0, 0, 0, 0, 0⟩

/-- Collaborator codes of a run whose `btrfs_commit_transaction` fails. -/
def commitFailSteps : StepResults := ⟨0, 0, 0, 0, 0, -5⟩

/-- A filesystem with no orphan markers at all. -/
def emptyState : FsState := ⟨[], [], [], false⟩

/-- A root item whose deletion never started (`drop_progress.objectid = 0`)
and whose `BTRFS_ROOT_SUBVOL_DEAD` flag is set. -/
def intactDeadRoot : RootItem := ⟨2 ^ 48 + 1, ⟨0, 0, 0⟩, 7⟩

/-- A root item whose destructive traversal has advanced
(`drop_progress.objectid = 42`). -/
def damagedRoot : RootItem := ⟨2 ^ 48, ⟨42, 0, 0⟩, 7⟩

/-- One orphan marker for subvolume 300, whose root is intact. -/
def stIntact300 : FsState := ⟨[300], [(300, intactDeadRoot)], [], false⟩

/-- Orphan markers for subvolumes 5, 9 and 20 (none of their roots resolve,
so all are damaged). -/
def stMarkers : FsState := ⟨[5, 9, 20], [], [], false⟩

/-- One orphan marker for subvolume 7, whose root resolves but is damaged. -/
def stDamaged7 : FsState := ⟨[7], [(7, damagedRoot)], [], false⟩

/-- One orphan marker for subvolume 3 only. -/
def stMarker3 : FsState := ⟨[3], [], [], false⟩

/-- C2: `is_subvol_intact` returns `false` when the subvolume's root cannot
be resolved, and otherwise returns `true` exactly when the `objectid`
component of the root item's `drop_progress` cursor is zero; any non-zero
value classifies the subvolume as damaged. -/
theorem is_subvol_intact_spec (st : FsState) (id : Nat) :
    (lookupRoot st id = none → is_subvol_intact st id = false) ∧
    (∀ r, lookupRoot st id = some r →
      (is_subvol_intact st id = true ↔ r.drop_progress.objectid = 0)) := by
  constructor
  · intro h
    simp [is_subvol_intact, h]
  · intro r h
    simp [is_subvol_intact, h]

theorem is_subvol_intact_spec_witness :
    is_subvol_intact stIntact300 300 = true ∧
    is_subvol_intact stDamaged7 7 = false ∧
    is_subvol_intact emptyState 300 = false :=
  ⟨((is_subvol_intact_spec stIntact300 300).2 intactDeadRoot rfl).mpr rfl,
   by
     have h := (is_subvol_intact_spec stDamaged7 7).2 damagedRoot rfl
     rcases hb : is_subvol_intact stDamaged7 7 with _ | _
     · rfl
     · exact absurd (h.mp hb) (by decide),
   (is_subvol_intact_spec emptyState 300).1 rfl⟩

/-- The mask `~BTRFS_ROOT_SUBVOL_DEAD` (as `u64`) has every bit below 64
set except bit 48. -/
theorem deadMask_testBit_lt : ∀ i : Nat, i < 64 → i ≠ 48 →
    (U64_MAX ^^^ BTRFS_ROOT_SUBVOL_DEAD).testBit i = true := by decide

theorem deadMask_testBit_48 :
    (U64_MAX ^^^ BTRFS_ROOT_SUBVOL_DEAD).testBit 48 = false := by decide

theorem find?_key_map (l : List (Nat × RootItem)) (id j : Nat)
    (g : RootItem → RootItem) :
    (l.map (fun p => if p.1 = id then (p.1, g p.2) else p)).find?
        (fun p => p.1 == j)
      = (l.find? (fun p => p.1 == j)).map
          (fun p => if p.1 = id then (p.1, g p.2) else p) := by
  have hpred : ((fun p => p.1 == j) ∘
      (fun p : Nat × RootItem => if p.1 = id then (p.1, g p.2) else p))
      = (fun p => p.1 == j) := by
    funext p
    by_cases h : p.1 = id <;> simp [h, Function.comp]
  rw [List.find?_map, hpred]

/-- C9: `recover_dead_root` succeeds on a present root item and mutates only
its flags word — bit 48 (`BTRFS_ROOT_SUBVOL_DEAD`) is cleared and every
other bit keeps its value — while the `drop_progress` cursor, all abstracted
remaining fields, every other root item, and every other component of the
filesystem state are unchanged. -/
theorem recover_dead_root_clears_only_dead_flag (st : FsState) (id : Nat)
    (item : RootItem) (hfound : lookupRoot st id = some item)
    (hflags : item.flags < U64_MOD) :
    (recover_dead_root 0 st id).1 = 0 ∧
    (recover_dead_root 0 st id).2.orphans = st.orphans ∧
    (recover_dead_root 0 st id).2.links = st.links ∧
    (recover_dead_root 0 st id).2.lostFound = st.lostFound ∧
    (∀ j, j ≠ id →
      lookupRoot (recover_dead_root 0 st id).2 j = lookupRoot st j) ∧
    ∃ item', lookupRoot (recover_dead_root 0 st id).2 id = some item' ∧
      item'.drop_progress = item.drop_progress ∧
      item'.otherFields = item.otherFields ∧
      item'.flags.testBit 48 = false ∧
      ∀ i, i ≠ 48 → item'.flags.testBit i = item.flags.testBit i := by
  have hsome : (lookupRoot st id).isSome := by rw [hfound]; rfl
  have heq : recover_dead_root 0 st id =
      (0, { st with roots := st.roots.map (fun p =>
              if p.1 = id then
                (p.1, { p.2 with
                          flags := p.2.flags &&&
                            (U64_MAX ^^^ BTRFS_ROOT_SUBVOL_DEAD) })
              else p) }) := by
    simp [recover_dead_root, hsome]
  set g : RootItem → RootItem := fun r =>
    { r with flags := r.flags &&& (U64_MAX ^^^ BTRFS_ROOT_SUBVOL_DEAD) } with hg
  refine ⟨by rw [heq], by rw [heq], by rw [heq], by rw [heq], ?_, ?_⟩
  · intro j hj
    rw [heq]
    show (Option.map Prod.snd _) = _
    rw [show ({ st with roots := st.roots.map (fun p =>
          if p.1 = id then (p.1, g p.2) else p) } : FsState).roots
        = st.roots.map (fun p => if p.1 = id then (p.1, g p.2) else p)
      from rfl]
    rw [find?_key_map]
    rcases hf : st.roots.find? (fun p => p.1 == j) with _ | p
    · simp [lookupRoot, hf]
    · have hp : p.1 = j := by
        have := List.find?_some hf
        simpa using this
      simp [lookupRoot, hf, hp, hj]
  · -- the entry of `id` itself
    rw [heq]
    obtain ⟨p, hfp, hsnd⟩ : ∃ p, st.roots.find? (fun q => q.1 == id) = some p ∧
        p.2 = item := by
      unfold lookupRoot at hfound
      rcases hf : st.roots.find? (fun q => q.1 == id) with _ | p
      · rw [hf] at hfound; simp at hfound
      · rw [hf] at hfound; simp at hfound; exact ⟨p, hf, hfound⟩
    have hp1 : p.1 = id := by
      have := List.find?_some hfp
      simpa using this
    refine ⟨g item, ?_, rfl, rfl, ?_, ?_⟩
    · show (Option.map Prod.snd _) = _
      rw [show ({ st with roots := st.roots.map (fun q =>
            if q.1 = id then (q.1, g q.2) else q) } : FsState).roots
          = st.roots.map (fun q => if q.1 = id then (q.1, g q.2) else q)
        from rfl]
      rw [find?_key_map, hfp]
      simp [hp1, hsnd]
    · show (item.flags &&& (U64_MAX ^^^ BTRFS_ROOT_SUBVOL_DEAD)).testBit 48
          = false
      rw [Nat.testBit_land, deadMask_testBit_48, Bool.and_false]
    · intro i hi
      show (item.flags &&& (U64_MAX ^^^ BTRFS_ROOT_SUBVOL_DEAD)).testBit i
          = item.flags.testBit i
      rw [Nat.testBit_land]
      by_cases hlt : i < 64
      · rw [deadMask_testBit_lt i hlt hi, Bool.and_true]
      · have h64 : (2 : Nat) ^ 64 ≤ 2 ^ i :=
          Nat.pow_le_pow_right (by norm_num) (by omega)
        have : item.flags.testBit i = false :=
          Nat.testBit_eq_false_of_lt (lt_of_lt_of_le (by simpa [U64_MOD] using hflags) h64)
        rw [this, Bool.false_and]

theorem recover_dead_root_clears_only_dead_flag_witness :
    (recover_dead_root 0 stIntact300 300).1 = 0 ∧
    (recover_dead_root 0 stIntact300 300).2.orphans = stIntact300.orphans :=
  ⟨(recover_dead_root_clears_only_dead_flag stIntact300 300 intactDeadRoot
      rfl (by decide)).1,
   (recover_dead_root_clears_only_dead_flag stIntact300 300 intactDeadRoot
      rfl (by decide)).2.1⟩


theorem recover_orphans_eq (se : Int) (st : FsState) (id : Nat) :
    (recover_dead_root se st id).2.orphans = st.orphans := by
  unfold recover_dead_root
  dsimp only
  split_ifs <;> rfl

theorem link_fail_state_eq (sr : StepResults) (st : FsState) (id : Nat)
    (h : (link_subvol_to_lostfound sr st id).1 ≠ 0) :
    (link_subvol_to_lostfound sr st id).2 = st := by
  unfold link_subvol_to_lostfound at h ⊢
  dsimp only at h ⊢
  split_ifs at h ⊢ <;> simp_all

theorem link_orphans_cases (sr : StepResults) (st : FsState) (id : Nat) :
    (link_subvol_to_lostfound sr st id).2.orphans = st.orphans ∨
    (link_subvol_to_lostfound sr st id).2.orphans
      = st.orphans.filter (fun x => x ≠ id) := by
  unfold link_subvol_to_lostfound
  dsimp only
  split_ifs <;> first | (left; rfl) | (right; simp [recover_orphans_eq])

set_option maxHeartbeats 1000000 in
theorem link_ret_eq (sr : StepResults) (st : FsState) (id : Nat) :
    (link_subvol_to_lostfound sr st id).1 =
      if sr.start_ret ≠ 0 then sr.start_ret
      else if sr.mkdir_ret < 0 then sr.mkdir_ret
      else if sr.link_ret ≠ 0 then sr.link_ret
      else if sr.search_ret ≠ 0 then sr.search_ret
      else if ¬ (lookupRoot st id).isSome then 1
      else if sr.del_ret ≠ 0 then sr.del_ret
      else if sr.commit_ret ≠ 0 then sr.commit_ret
      else 0 := by
  have hlook : lookupRoot ⟨st.orphans, st.roots,
      ("sub" ++ toString id, id) :: st.links, true⟩ id = lookupRoot st id := rfl
  unfold link_subvol_to_lostfound recover_dead_root
  dsimp only
  rw [hlook]
  split_ifs <;> first | rfl | omega

theorem link_subvol_to_lostfound_error_preserves_state (sr : StepResults)
    (st : FsState) (id : Nat)
    (hfail : sr.start_ret ≠ 0 ∨ sr.mkdir_ret < 0 ∨ sr.link_ret ≠ 0 ∨
      sr.search_ret ≠ 0 ∨ lookupRoot st id = none ∨ sr.del_ret ≠ 0 ∨
      sr.commit_ret ≠ 0) :
    (link_subvol_to_lostfound sr st id).1 ≠ 0 ∧
    (link_subvol_to_lostfound sr st id).2 = st ∧
    (link_subvol_to_lostfound sr st id).2.orphans = st.orphans ∧
    (link_subvol_to_lostfound sr st id).2.roots = st.roots ∧
    (link_subvol_to_lostfound sr st id).2.links = st.links := by
  have hret : (link_subvol_to_lostfound sr st id).1 ≠ 0 := by
    rw [link_ret_eq]
    split_ifs <;> first | assumption | omega | simp_all
  have hst := link_fail_state_eq sr st id hret
  exact ⟨hret, hst, by rw [hst], by rw [hst], by rw [hst]⟩

theorem link_subvol_to_lostfound_error_preserves_state_witness :
    (link_subvol_to_lostfound commitFailSteps stIntact300 300).1 ≠ 0 ∧
    (link_subvol_to_lostfound commitFailSteps stIntact300 300).2
      = stIntact300 :=
  ⟨(link_subvol_to_lostfound_error_preserves_state commitFailSteps
      stIntact300 300 (by right; right; right; right; right; right; decide)).1,
   (link_subvol_to_lostfound_error_preserves_state commitFailSteps
      stIntact300 300 (by right; right; right; right; right; right; decide)).2.1⟩

/-- C5: one candidate step of the scan loop: a damaged (non-intact)
candidate changes neither counter and the loop continues at the smaller
bound; an intact candidate increments `found_count`; a successful recovery
transaction additionally increments `recovered_count`; a failed recovery
transaction increments neither counter and does not abort the scan, which
continues to the next candidate. -/
theorem scan_candidate_counter_policy
    (steps : Nat → StepResults) (search_err : Nat → Int) (subvol_id : Nat)
    (st : FsState) (offset k : Nat) (found_count recovered_count : Nat)
    (visited classified announced : List Nat) (ret : Int)
    (hloop : subvol_id ≠ offset) (hsearch : 0 ≤ search_err offset)
    (hprev : prevOrphan st.orphans offset = some k)
    (hfilter : subvol_id = 0 ∨ subvol_id = k) :
    (is_subvol_intact st k = false →
      scanLoop steps search_err subvol_id st offset found_count
          recovered_count visited classified announced ret =
        scanLoop steps search_err subvol_id st k found_count recovered_count
          (k :: visited) (k :: classified) announced 0) ∧
    (is_subvol_intact st k = true →
      (link_subvol_to_lostfound (steps k) st k).1 = 0 →
      scanLoop steps search_err subvol_id st offset found_count
          recovered_count visited classified announced ret =
        scanLoop steps search_err subvol_id
          (link_subvol_to_lostfound (steps k) st k).2 k (found_count + 1)
          (recovered_count + 1) (k :: visited) (k :: classified)
          (k :: announced) 0) ∧
    (is_subvol_intact st k = true →
      (link_subvol_to_lostfound (steps k) st k).1 ≠ 0 →
      scanLoop steps search_err subvol_id st offset found_count
          recovered_count visited classified announced ret =
        scanLoop steps search_err subvol_id
          (link_subvol_to_lostfound (steps k) st k).2 k (found_count + 1)
          recovered_count (k :: visited) (k :: classified) announced
          (link_subvol_to_lostfound (steps k) st k).1) := by
  have hne : ¬ (subvol_id ≠ 0 ∧ subvol_id ≠ k) := by
    rcases hfilter with rfl | rfl <;> simp
  have hnlt : ¬ search_err offset < 0 := by omega
  refine ⟨?_, ?_, ?_⟩
  · intro hdmg
    conv_lhs => rw [scanLoop]
    rw [if_neg hloop, if_neg hnlt]
    split
    · rename_i heq; rw [heq] at hprev; cases hprev
    · rename_i k' heq
      rw [heq] at hprev
      cases hprev
      rw [if_neg hne, if_pos (by simp [hdmg])]
  · intro hint hok
    conv_lhs => rw [scanLoop]
    rw [if_neg hloop, if_neg hnlt]
    split
    · rename_i heq; rw [heq] at hprev; cases hprev
    · rename_i k' heq
      rw [heq] at hprev
      cases hprev
      rw [if_neg hne, if_neg (by simp [hint])]
      simp only [hok, if_pos]
  · intro hint hbad
    conv_lhs => rw [scanLoop]
    rw [if_neg hloop, if_neg hnlt]
    split
    · rename_i heq; rw [heq] at hprev; cases hprev
    · rename_i k' heq
      rw [heq] at hprev
      cases hprev
      rw [if_neg hne, if_neg (by simp [hint])]
      rw [if_neg hbad]

/-- Helper: the ids collected by the scan loop, read in strictly descending
order below the running bound, reverse into a strictly descending list. -/
theorem scanLoop_visited_chain (steps : Nat → StepResults)
    (search_err : Nat → Int) (subvol_id : Nat) :
    ∀ offset : Nat, ∀ (st : FsState) (found_count recovered_count : Nat)
      (visited classified announced : List Nat) (ret : Int),
      List.Chain' (· < ·) visited → (∀ x ∈ visited, offset ≤ x) →
      List.Chain' (· > ·)
        (scanLoop steps search_err subvol_id st offset found_count
          recovered_count visited classified announced ret).visited := by
  intro offset
  induction offset using Nat.strong_induction_on with
  | _ offset ih =>
    intro st found_count recovered_count visited classified announced ret
      hchain hbound
    rw [scanLoop]
    split
    · exact List.chain'_reverse.mpr hchain
    · split
      · exact List.chain'_reverse.mpr hchain
      · split
        · exact List.chain'_reverse.mpr hchain
        · rename_i k heq
          have hk := prevOrphan_lt heq
          have hchain' : List.Chain' (· < ·) (k :: visited) := by
            rw [List.chain'_cons']
            refine ⟨?_, hchain⟩
            intro y hy
            rcases visited with _ | ⟨v, vs⟩
            · simp at hy
            · simp at hy
              subst hy
              exact lt_of_lt_of_le hk (hbound v (List.mem_cons_self v vs))
          have hbound' : ∀ x ∈ k :: visited, k ≤ x := by
            intro x hx
            rcases List.mem_cons.mp hx with rfl | hm
            · exact le_refl x
            · exact le_of_lt (lt_of_lt_of_le hk (hbound x hm))
          split
          · exact List.chain'_reverse.mpr hchain'
          · split
            · exact ih k hk _ _ _ _ _ _ _ hchain' hbound'
            · dsimp only
              split
              · exact ih k hk _ _ _ _ _ _ _ hchain' hbound'
              · exact ih k hk _ _ _ _ _ _ _ hchain' hbound'

/-- C6: the scan visits marker ids in strictly descending order: the
previous-item step always yields the largest marker strictly below the
current bound (and a member of the index), the visited list of any
invocation is strictly descending, and the unfiltered scan of markers
{5, 9, 20} visits them in the order 20, 9, 5. -/
theorem scan_descending_order :
    (∀ (l : List Nat) (b k : Nat), prevOrphan l b = some k →
      k ∈ l ∧ k < b ∧ ∀ x ∈ l, x < b → x ≤ k) ∧
    (∀ (steps : Nat → StepResults) (search_err : Nat → Int) (st : FsState)
      (subvol_id : Nat),
      List.Chain' (· > ·)
        (btrfs_undelete_subvols steps search_err st subvol_id).visited) ∧
    (btrfs_undelete_subvols (fun _ => okSteps) (fun _ => 0) stMarkers 0).visited
      = [20, 9, 5] := by
  refine ⟨fun l b k h => prevOrphan_spec l b k h, ?_, ?_⟩
  · intro steps search_err st subvol_id
    unfold btrfs_undelete_subvols
    dsimp only
    exact scanLoop_visited_chain steps search_err subvol_id _ st 0 0 [] [] [] 0
      (by simp) (by simp)
  · simp [btrfs_undelete_subvols, scanLoop, prevOrphan, is_subvol_intact,
      lookupRoot, stMarkers, U64_MAX, U64_MOD, ENOENT]

theorem scan_descending_order_witness :
    20 ∈ [5, 9, 20] ∧ 20 < 21 ∧ ∀ x ∈ [5, 9, 20], x < 21 → x ≤ 20 :=
  scan_descending_order.1 [5, 9, 20] 21 20 (by decide)

theorem length_filter_mono (l : List Nat) (p q : Nat → Bool)
    (h : ∀ x, p x = true → q x = true) :
    (l.filter p).length ≤ (l.filter q).length := by
  induction l with
  | nil => simp
  | cons a xs ih =>
    simp only [List.filter_cons]
    by_cases hp : p a = true
    · rw [if_pos hp, if_pos (h a hp)]
      simpa using ih
    · rw [if_neg hp]
      by_cases hq : q a = true
      · rw [if_pos hq]
        simp
        omega
      · rw [if_neg hq]
        exact ih

theorem length_filter_lt_of_mem {l : List Nat} {k b : Nat}
    (hk : k ∈ l) (hkb : k < b) :
    (l.filter (fun x => decide (x < k))).length + 1
      ≤ (l.filter (fun x => decide (x < b))).length := by
  induction l with
  | nil => simp at hk
  | cons a xs ih =>
    simp only [List.filter_cons]
    rcases List.mem_cons.mp hk with rfl | hm
    · rw [if_neg (by simp), if_pos (by simp [hkb])]
      have := length_filter_mono xs (fun x => decide (x < k))
        (fun x => decide (x < b)) (fun x hx => by simp at hx ⊢; omega)
      simp only [List.length_cons]
      omega
    · by_cases hak : a < k
      · rw [if_pos (by simpa using hak), if_pos (by simp; omega)]
        have := ih hm
        simp only [List.length_cons]
        omega
      · rw [if_neg (by simpa using hak)]
        by_cases hab : a < b
        · rw [if_pos (by simpa using hab)]
          have := ih hm
          simp only [List.length_cons]
          omega
        · rw [if_neg (by simpa using hab)]
          exact ih hm

theorem link_filtered_length_le (sr : StepResults) (st : FsState)
    (id k : Nat) :
    ((link_subvol_to_lostfound sr st id).2.orphans.filter
        (fun x => decide (x < k))).length
      ≤ (st.orphans.filter (fun x => decide (x < k))).length := by
  rcases link_orphans_cases sr st id with h | h <;> rw [h]
  rw [List.filter_comm]
  exact List.length_filter_le _ _

/-- Helper: the scan loop reads at most as many markers as lie strictly
below its current bound (each iteration consumes one and shrinks the
bound), so the walk is finite. -/
theorem scanLoop_visited_length (steps : Nat → StepResults)
    (search_err : Nat → Int) (subvol_id : Nat) :
    ∀ offset : Nat, ∀ (st : FsState) (found_count recovered_count : Nat)
      (visited classified announced : List Nat) (ret : Int),
      (scanLoop steps search_err subvol_id st offset found_count
          recovered_count visited classified announced ret).visited.length
        ≤ visited.length
          + (st.orphans.filter (fun x => decide (x < offset))).length := by
  intro offset
  induction offset using Nat.strong_induction_on with
  | _ offset ih =>
    intro st found_count recovered_count visited classified announced ret
    rw [scanLoop]
    split
    · simp
    · split
      · simp
      · split
        · simp
        · rename_i k heq
          have hk := prevOrphan_lt heq
          have hmem := prevOrphan_mem heq
          have hstep := length_filter_lt_of_mem hmem hk
          split
          · simp only [List.length_reverse, List.length_cons]
            omega
          · split
            · have := ih k hk st found_count recovered_count
                (k :: visited) (k :: classified) announced 0
              simp only [List.length_cons] at this ⊢
              omega
            · dsimp only
              split
              · have := ih k hk
                  (link_subvol_to_lostfound (steps k) st k).2 (found_count + 1)
                  (recovered_count + 1) (k :: visited) (k :: classified)
                  (k :: announced) 0
                have hle := link_filtered_length_le (steps k) st k k
                simp only [List.length_cons] at this ⊢
                omega
              · have := ih k hk
                  (link_subvol_to_lostfound (steps k) st k).2 (found_count + 1)
                  recovered_count (k :: visited) (k :: classified) announced
                  (link_subvol_to_lostfound (steps k) st k).1
                have hle := link_filtered_length_le (steps k) st k k
                simp only [List.length_cons] at this ⊢
                omega

/-- C10: the scan loop of `btrfs_undelete_subvols` terminates: the key taken
from the previous-item step lies strictly below the current bound, so each
iteration continues with a strictly smaller 64-bit bound, and consequently a
whole invocation reads at most as many markers as the orphan index holds. -/
theorem scan_loop_terminates :
    (∀ (l : List Nat) (b k : Nat), prevOrphan l b = some k → k < b) ∧
    (∀ (steps : Nat → StepResults) (search_err : Nat → Int) (st : FsState)
      (subvol_id : Nat),
      (btrfs_undelete_subvols steps search_err st subvol_id).visited.length
        ≤ st.orphans.length) := by
  refine ⟨fun l b k h => prevOrphan_lt h, ?_⟩
  intro steps search_err st subvol_id
  unfold btrfs_undelete_subvols
  dsimp only
  have h := scanLoop_visited_length steps search_err subvol_id
    (if subvol_id ≠ 0 then (subvol_id + 1) % U64_MOD else U64_MAX)
    st 0 0 [] [] [] 0
  simp only [List.length_nil, Nat.zero_add] at h
  exact h.trans (List.length_filter_le _ _)

theorem scan_loop_terminates_witness :
    20 < 100 ∧
    (btrfs_undelete_subvols (fun _ => okSteps) (fun _ => 0) stMarkers 0).visited.length
      ≤ 3 :=
  ⟨scan_loop_terminates.1 [20] 100 20 (by decide),
   scan_loop_terminates.2 (fun _ => okSteps) (fun _ => 0) stMarkers 0⟩

theorem scan_candidate_counter_policy_witness :
    scanLoop (fun _ => okSteps) (fun _ => 0) 0 stDamaged7 100 0 0 [] [] [] 0
      = scanLoop (fun _ => okSteps) (fun _ => 0) 0 stDamaged7 7 0 0 [7] [7] [] 0 :=
  (scan_candidate_counter_policy (fun _ => okSteps) (fun _ => 0) 0 stDamaged7
    100 7 0 0 [] [] [] 0 (by decide) (by decide) (by decide)
    (Or.inl rfl)).1 (by decide)

/-- C7: requesting a specific non-zero id whose orphan marker exists but
whose subvolume is damaged (unresolvable root or non-zero progress cursor)
makes `btrfs_undelete_subvols` return success (0) with
`found_count = recovered_count = 0` and an unchanged filesystem state: the
damaged candidate is classified and skipped, not treated as an error. -/
theorem undelete_filtered_damaged_returns_success
    (steps : Nat → StepResults) (search_err : Nat → Int) (st : FsState)
    (f : Nat) (hf : f ≠ 0) (hmod : f + 1 < U64_MOD)
    (hmem : f ∈ st.orphans) (hdamaged : is_subvol_intact st f = false)
    (hsearch : 0 ≤ search_err (f + 1)) :
    btrfs_undelete_subvols steps search_err st f =
      ⟨0, 0, 0, [f], [f], [], 0, 0, st⟩ := by
  have hprev := prevOrphan_succ_self hmem
  have hexit : scanLoop steps search_err f st f 0 0 [f] [f] [] 0
      = ⟨0, 0, 0, [f], [f], [], st⟩ := by
    rw [scanLoop]
    rw [if_pos rfl]
    rfl
  have hiter : scanLoop steps search_err f st (f + 1) 0 0 [] [] [] 0
      = ⟨0, 0, 0, [f], [f], [], st⟩ := by
    rw [scanLoop]
    rw [if_neg (by omega), if_neg (by omega)]
    split
    · rename_i hnone; rw [hnone] at hprev; cases hprev
    · rename_i k heq
      rw [heq] at hprev
      cases hprev
      rw [if_neg (by simp), if_pos (by simp [hdamaged])]
      exact hexit
  unfold btrfs_undelete_subvols
  dsimp only
  rw [if_pos hf, Nat.mod_eq_of_lt hmod, hiter]

theorem undelete_filtered_damaged_returns_success_witness :
    btrfs_undelete_subvols (fun _ => okSteps) (fun _ => 0) stDamaged7 7
      = ⟨0, 0, 0, [7], [7], [], 0, 0, stDamaged7⟩ :=
  undelete_filtered_damaged_returns_success (fun _ => okSteps) (fun _ => 0)
    stDamaged7 7 (by decide) (by decide) (by decide) (by decide) (by decide)

/-- C4 counterexample: with a non-zero filter id (5) and no orphan marker at
all, the scan returns 1 (the no-previous-item code), not `-ENOENT`, so the
claim's "finds no marker at all ⟹ returns -ENOENT" part fails on the code. -/
theorem undelete_filtered_missing_marker_not_enoent :
    (btrfs_undelete_subvols (fun _ => okSteps) (fun _ => 0) emptyState 5).ret
        = 1 ∧
    (1 : Int) ≠ -ENOENT := by
  constructor
  · simp [btrfs_undelete_subvols, scanLoop, prevOrphan, emptyState,
      U64_MOD, U64_MAX]
  · decide

/-- C4 (amended): with a non-zero filter id, if the descending walk finds a
marker whose id differs from the filter it stops immediately — the marker is
not classified, no counter moves, the state is untouched — and the whole
invocation returns `-ENOENT`; if it finds no marker at all it also stops
with nothing classified or recovered, but returns the storage engine's
positive no-previous-item code 1, a non-zero outcome distinct from
`-ENOENT`. -/
theorem undelete_filtered_not_found
    (steps : Nat → StepResults) (search_err : Nat → Int) (st : FsState)
    (f : Nat) (hf : f ≠ 0) (hmod : f + 1 < U64_MOD)
    (hsearch : 0 ≤ search_err (f + 1)) :
    (∀ k, prevOrphan st.orphans (f + 1) = some k → k ≠ f →
      btrfs_undelete_subvols steps search_err st f =
        ⟨-ENOENT, 0, 0, [k], [], [], 0, 0, st⟩) ∧
    (prevOrphan st.orphans (f + 1) = none →
      btrfs_undelete_subvols steps search_err st f =
        ⟨1, 0, 0, [], [], [], 0, 0, st⟩) := by
  constructor
  · intro k hprev hne
    have hiter : scanLoop steps search_err f st (f + 1) 0 0 [] [] [] 0
        = ⟨-ENOENT, 0, 0, [k], [], [], st⟩ := by
      rw [scanLoop]
      rw [if_neg (by omega), if_neg (by omega)]
      split
      · rename_i hnone; rw [hnone] at hprev; cases hprev
      · rename_i k' heq
        rw [heq] at hprev
        cases hprev
        rw [if_pos ⟨hf, fun he => hne he.symm⟩]
        rfl
    unfold btrfs_undelete_subvols
    dsimp only
    rw [if_pos hf, Nat.mod_eq_of_lt hmod, hiter]
  · intro hprev
    have hiter : scanLoop steps search_err f st (f + 1) 0 0 [] [] [] 0
        = ⟨1, 0, 0, [], [], [], st⟩ := by
      rw [scanLoop]
      rw [if_neg (by omega), if_neg (by omega)]
      split
      · rfl
      · rename_i k' heq; rw [heq] at hprev; cases hprev
    unfold btrfs_undelete_subvols
    dsimp only
    rw [if_pos hf, Nat.mod_eq_of_lt hmod, hiter]

theorem undelete_filtered_not_found_witness :
    btrfs_undelete_subvols (fun _ => okSteps) (fun _ => 0) stMarker3 5
      = ⟨-ENOENT, 0, 0, [3], [], [], 0, 0, stMarker3⟩ :=
  (undelete_filtered_not_found (fun _ => okSteps) (fun _ => 0) stMarker3 5
    (by decide) (by decide) (by decide)).1 3 (by decide) (by decide)

/-- C3 (code bug): on normal exhaustion of the marker range with no storage
error, `btrfs_undelete_subvols` returns 1 — the positive no-previous-item
code of `btrfs_previous_item` — not 0, contradicting its own documentation
("Return 0 if no error occurred even if no subvolume was recovered"): both
with an empty orphan index and after a fully successful recovery run. -/
theorem undelete_scan_exhaustion_returns_one :
    (btrfs_undelete_subvols (fun _ => okSteps) (fun _ => 0) emptyState 0).ret
        = 1 ∧
    (btrfs_undelete_subvols (fun _ => okSteps) (fun _ => 0) stIntact300 0).ret
        = 1 ∧
    (btrfs_undelete_subvols (fun _ => okSteps) (fun _ => 0)
        stIntact300 0).recovered_count = 1 := by
  refine ⟨?_, ?_, ?_⟩ <;>
    simp [btrfs_undelete_subvols, scanLoop, prevOrphan, is_subvol_intact,
      lookupRoot, link_subvol_to_lostfound, recover_dead_root, okSteps,
      emptyState, stIntact300, intactDeadRoot, U64_MAX, U64_MOD, ENOENT]

/-- C8 (code bug): the closing summary of `btrfs_undelete_subvols` passes
`found_count` to both `printf` calls, so the "Recovered %llu deleted
subvols" line prints `found_count`, not `recovered_count`: with one intact
orphan whose recovery transaction fails at commit, the counters are
`found_count = 1`, `recovered_count = 0`, yet the second summary line prints
1. -/
theorem undelete_summary_prints_found_twice :
    (btrfs_undelete_subvols (fun _ => commitFailSteps) (fun _ => 0)
        stIntact300 0).found_count = 1 ∧
    (btrfs_undelete_subvols (fun _ => commitFailSteps) (fun _ => 0)
        stIntact300 0).recovered_count = 0 ∧
    (btrfs_undelete_subvols (fun _ => commitFailSteps) (fun _ => 0)
        stIntact300 0).summary_found = 1 ∧
    (btrfs_undelete_subvols (fun _ => commitFailSteps) (fun _ => 0)
        stIntact300 0).summary_recovered = 1 := by
  refine ⟨?_, ?_, ?_, ?_⟩ <;>
    simp [btrfs_undelete_subvols, scanLoop, prevOrphan, is_subvol_intact,
      lookupRoot, link_subvol_to_lostfound, recover_dead_root,
      commitFailSteps, stIntact300, intactDeadRoot, U64_MAX, U64_MOD, ENOENT]
